import Mathlib

/-!
Shallow embedding of the bun-sqlite cache store (`bunSqliteStore` in the
repository's main module) and verification of its key/value, TTL and
purge-sweep behaviour.

Modelling conventions:
* JS epoch-millisecond timestamps are `Int`; each `Date.now()` call in the
  source is a separate explicit parameter of the embedded operation, in the
  order the source samples them (the source may sample the clock more than
  once inside one call).
* The SQLite table is a `List CacheRow`; `INSERT OR REPLACE` on the `key`
  primary key is `upsert` (delete the conflicting row, append the new one);
  `DELETE ... WHERE expire_at < ?` is a `filter`; `SELECT ... WHERE key = ?
  AND expire_at > ? LIMIT 1` is `List.find?`.
* The serializer adapter is a pair of functions that can fail
  (`Except String`), since the underlying codecs (`JSON.stringify`/`parse`,
  cbor `encode`/`decode`) throw on some inputs; the source does not catch
  these exceptions, so a codec failure is a propagated `Except.error`.
* A thrown `NoCacheableError` or propagated codec exception on the write
  path is the `Except.error` branch of `set`/`mset`; the value carried by
  `CacheErr.noCacheable` stands for the source's
  `new NoCacheableError(..." is not a cacheable value")`.
-/

namespace BunSqliteStore

/-- One row of the cache table, mirroring the `CacheRow` interface and the
DDL `key TEXT PRIMARY KEY, val BLOB, created_at INTEGER, expire_at INTEGER`
(timestamps in epoch milliseconds). `B` is the blob type produced by the
serializer. -/
structure CacheRow (B : Type) where
  key : String
  val : B
  created_at : Int
  expire_at : Int
deriving Repr, DecidableEq

/-- Mutable state owned by one store instance: the physical table contents
plus the purge cursor `lastPurgeTime` (initialised to `0` at construction:
`let lastPurgeTime = 0`). -/
structure StoreState (B : Type) where
  table : List (CacheRow B)
  lastPurgeTime : Int
deriving Repr, DecidableEq

/-- Store configuration fixed at construction time: the serializer adapter
picked from the `serializers` map (or, abstractly, any codec pair),
`defaultTtl` in milliseconds (the source computes `defaultTtl = ttl * 1000`
from the `ttl` option in seconds, default `24 * 60 * 60`), and the
`isCacheable` predicate (`options.isCacheable` or the default one). -/
structure StoreConfig (V B : Type) where
  serialize : V → Except String B
  deserialize : B → Except String V
  defaultTtl : Int
  isCacheable : V → Bool

/-- Errors thrown by the write paths: `NoCacheableError` (carrying the
rejected value) or a codec exception propagated uncaught. -/
inductive CacheErr (V : Type) where
  | noCacheable (value : V)
  | codec (msg : String)
deriving DecidableEq

/-- The empty store as built at construction: empty table,
`lastPurgeTime = 0`. -/
def initState {B : Type} : StoreState B :=
  { table := [], lastPurgeTime := 0 }

/-- `INSERT OR REPLACE INTO name(key, val, created_at, expire_at)`: the row
conflicting on the `key` primary key (if any) is deleted and the new row
inserted. -/
def upsert {B : Type} (table : List (CacheRow B)) (r : CacheRow B) :
    List (CacheRow B) :=
  table.filter (fun r0 => !(r0.key == r.key)) ++ [r]

/-- `purgeExpired`: if at least one hour (`60 * 60 * 1000` ms) has elapsed
since `lastPurgeTime`, run `DELETE FROM name WHERE expire_at < now` and
advance the cursor; otherwise do nothing. `now` is the `Date.now()` sample
taken at the top of `purgeExpired`. -/
def purgeExpired {B : Type} (now : Int) (s : StoreState B) : StoreState B :=
  if now - s.lastPurgeTime ≥ 60 * 60 * 1000 then
    { table := s.table.filter (fun r => !(decide (r.expire_at < now))),
      lastPurgeTime := now }
  else s

/-- `const ttlValue = ttl !== undefined ? ttl * 1000 : defaultTtl;` shared
by `set` and `mset`. `ttlOpt` is the optional `ttl` argument in seconds. -/
def effectiveTtl {V B : Type} (cfg : StoreConfig V B) (ttlOpt : Option Int) :
    Int :=
  match ttlOpt with
  | some t => t * 1000
  | none => cfg.defaultTtl

/-- `set(key, value, ttl?)`. `now1` is the `Date.now()` sample used for
`expireAt`; `now2` is the later sample passed to `statement.run` as
`created_at`. Order of the source: negative-TTL early return, cacheability
check (throws `NoCacheableError`), `expireAt` computation, serialization
(uncaught, so a codec failure propagates), then the upsert. -/
def set {V B : Type} (cfg : StoreConfig V B) (now1 now2 : Int) (key : String)
    (value : V) (ttlOpt : Option Int) (s : StoreState B) :
    Except (CacheErr V) (StoreState B) :=
  let ttlValue := effectiveTtl cfg ttlOpt
  if ttlValue < 0 then .ok s
  else if !(cfg.isCacheable value) then .error (.noCacheable value)
  else
    let expireAt := now1 + ttlValue
    match cfg.serialize value with
    | .error e => .error (.codec e)
    | .ok b =>
      .ok { s with
            table := upsert s.table
              { key := key, val := b, created_at := now2,
                expire_at := expireAt } }

/-- `get(key)`: run the (throttled) purge sweep with its own `Date.now()`
sample `nowP`, then `SELECT * FROM name WHERE key = ? AND expire_at > ?
LIMIT 1` with the later sample `nowG`; on a hit, deserialize the payload —
the source has no try/catch here, so a decode failure is a propagated
error. A miss is `.ok none` (JS `undefined`). -/
def get {V B : Type} (cfg : StoreConfig V B) (nowP nowG : Int) (key : String)
    (s : StoreState B) : StoreState B × Except String (Option V) :=
  let s1 := purgeExpired nowP s
  match s1.table.find? (fun r => r.key == key && decide (nowG < r.expire_at)) with
  | none => (s1, .ok none)
  | some r =>
    match cfg.deserialize r.val with
    | .ok v => (s1, .ok (some v))
    | .error e => (s1, .error e)

/-- The binding-building `flatMap` of `mset`, left to right over the pairs:
for each pair, check cacheability (throwing `NoCacheableError`), serialize
(uncaught codec failure propagates), and emit the row
`(key, blob, Date.now(), expireAt)`. Each pair's `Date.now()` sample is
carried alongside the pair as the second component. -/
def msetBindings {V B : Type} (cfg : StoreConfig V B) (expireAt : Int) :
    List ((String × V) × Int) → Except (CacheErr V) (List (CacheRow B))
  | [] => .ok []
  | ((k, v), t) :: rest =>
    if !(cfg.isCacheable v) then .error (.noCacheable v)
    else
      match cfg.serialize v with
      | .error e => .error (.codec e)
      | .ok b =>
        match msetBindings cfg expireAt rest with
        | .error e => .error e
        | .ok rows =>
          .ok ({ key := k, val := b, created_at := t, expire_at := expireAt }
               :: rows)

/-- `mset(pairs, ttl?)`: negative-TTL early return, a single shared
`expireAt = Date.now() + ttlValue` (sample `t0`), then the bindings are
built for the whole batch before the single multi-row
`INSERT OR REPLACE` runs; an error while building the bindings aborts the
call before anything is written. The multi-row upsert applies the rows in
order. -/
def mset {V B : Type} (cfg : StoreConfig V B) (t0 : Int)
    (pairs : List ((String × V) × Int)) (ttlOpt : Option Int)
    (s : StoreState B) : Except (CacheErr V) (StoreState B) :=
  let ttlValue := effectiveTtl cfg ttlOpt
  if ttlValue < 0 then .ok s
  else
    let expireAt := t0 + ttlValue
    match msetBindings cfg expireAt pairs with
    | .error e => .error e
    | .ok rows => .ok { s with table := rows.foldl upsert s.table }

/-- `keys()`: run the (throttled) purge sweep, then `SELECT key FROM name`
with no expiration filter. -/
def keysFn {B : Type} (nowP : Int) (s : StoreState B) :
    StoreState B × List String :=
  let s1 := purgeExpired nowP s
  (s1, s1.table.map (fun r => r.key))

/-- `ttl(key)` (`ttlFn` in the source): run the (throttled) purge sweep
(sample `nowP`), then `SELECT expire_at FROM name WHERE key = ?`; if a row
is present return `expire_at - Date.now()` (later sample `nowT`), else
`-1`. Note: no `expire_at` filter in the query. -/
def ttlFn {B : Type} (nowP nowT : Int) (key : String) (s : StoreState B) :
    StoreState B × Int :=
  let s1 := purgeExpired nowP s
  match s1.table.find? (fun r => r.key == key) with
  | some r => (s1, r.expire_at - nowT)
  | none => (s1, -1)

/-- A small universe of JS values sufficient for concrete instantiations:
`undefined`, `null`, a function value, numbers and strings. -/
inductive JsVal where
  | undef
  | jsNull
  | fn
  | num (n : Int)
  | str (s : String)
deriving Repr, DecidableEq

/-- The default cacheability predicate of the source:
`value !== undefined && value !== null && typeof value !== 'function'`. -/
def defaultIsCacheable : JsVal → Bool
  | .undef => false
  | .jsNull => false
  | .fn => false
  | _ => true

/-- Concrete configuration with the default options and an identity codec
(a codec for which serialization always succeeds and round-trips): default
TTL `24 * 60 * 60` seconds = `86400000` ms, default cacheability
predicate. -/
def cfgId : StoreConfig JsVal JsVal where
  serialize := fun v => .ok v
  deserialize := fun v => .ok v
  defaultTtl := 86400000
  isCacheable := defaultIsCacheable

/-- Concrete configuration whose codec mirrors the repository test
`should return undefined for junk stored values`: deserializing the junk
payload `~junk~` fails the way cbor `decode` throws on a non-CBOR blob;
any other payload decodes. Default TTL and predicate as in the source. -/
def cfgJunk : StoreConfig JsVal String where
  serialize := fun _ => .ok "blob"
  deserialize := fun b =>
    if b == "~junk~" then .error "unexpected cbor payload" else .ok (.str b)
  defaultTtl := 86400000
  isCacheable := defaultIsCacheable

/-- Concrete configuration whose serializer fails on the value `num 0`
(standing for a value the codec throws on, e.g. `JSON.stringify` on a
circular object — a value the default cacheability predicate accepts) and
succeeds elsewhere. Default TTL and predicate as in the source. -/
def cfgFailSer : StoreConfig JsVal String where
  serialize := fun v =>
    match v with
    | .num 0 => .error "circular structure"
    | .str s => .ok s
    | _ => .ok "blob"
  deserialize := fun b => .ok (.str b)
  defaultTtl := 86400000
  isCacheable := defaultIsCacheable

/-! Helper lemmas about the table primitives, shared by several results. -/

/-- Every row of the table after a purge sweep was already present before
it (the sweep only deletes). -/
lemma mem_of_mem_purge {B : Type} (now : Int) (s : StoreState B)
    (x : CacheRow B) (hx : x ∈ (purgeExpired now s).table) : x ∈ s.table := by
  unfold purgeExpired at hx
  by_cases hp : now - s.lastPurgeTime ≥ 60 * 60 * 1000
  · rw [if_pos hp] at hx
    exact (List.mem_filter.mp hx).1
  · rwa [if_neg hp] at hx

/-- A row of an upserted table is either a surviving old row (with a key
different from the new row's key) or the new row itself. -/
lemma mem_upsert_cases {B : Type} (t : List (CacheRow B)) (r x : CacheRow B)
    (hx : x ∈ upsert t r) : (x ∈ t ∧ (x.key == r.key) = false) ∨ x = r := by
  unfold upsert at hx
  rcases List.mem_append.mp hx with h | h
  · have := List.mem_filter.mp h
    exact Or.inl ⟨this.1, by simpa using this.2⟩
  · exact Or.inr (by simpa using h)

/-- After upserting a row `r` that the purge sweep does not delete
(`¬ r.expire_at < now`), the purged table is some prefix of rows with keys
different from `r.key`, followed by `r` itself. -/
lemma purge_upsert_decomp {B : Type} (now : Int) (s : StoreState B)
    (r : CacheRow B) (hkeep : ¬ r.expire_at < now) :
    ∃ l, (purgeExpired now { s with table := upsert s.table r }).table
        = l ++ [r] ∧ ∀ x ∈ l, (x.key == r.key) = false := by
  have hdec : decide (r.expire_at < now) = false := by simpa using hkeep
  unfold purgeExpired upsert
  by_cases hp : now - s.lastPurgeTime ≥ 60 * 60 * 1000
  · rw [if_pos hp]
    refine ⟨((s.table.filter fun r0 => !(r0.key == r.key)).filter
        fun r0 => !(decide (r0.expire_at < now))), ?_, ?_⟩
    · simp [List.filter_append, hdec]
    · intro x hx
      have h1 := (List.mem_filter.mp hx).1
      simpa using (List.mem_filter.mp h1).2
  · rw [if_neg hp]
    refine ⟨s.table.filter fun r0 => !(r0.key == r.key), rfl, ?_⟩
    intro x hx
    simpa using (List.mem_filter.mp hx).2

end BunSqliteStore

namespace BunSqliteStore

/-- C6: for every strictly negative `ttlSeconds`, `set` is a silently
successful no-op leaving the state (hence the table) unchanged, and `mset`
with the same negative TTL likewise leaves the whole batch unwritten; a
subsequent `get` therefore behaves exactly as on the pre-call state and
never observes the new value. -/
theorem claim6_negative_ttl_noop {V B : Type} (cfg : StoreConfig V B)
    (t : Int) (ht : t < 0) (now1 now2 t0 : Int) (k : String) (v : V)
    (pairs : List ((String × V) × Int)) (s : StoreState B) :
    set cfg now1 now2 k v (some t) s = .ok s ∧
      mset cfg t0 pairs (some t) s = .ok s := by
  have h1000 : t * 1000 < 0 := by omega
  constructor
  · simp [set, effectiveTtl, h1000]
  · simp [mset, effectiveTtl, h1000]

/-- C6 witness: `set` and `mset` with `ttlSeconds = -1` on the fresh store
return success and leave the state unchanged. -/
theorem claim6_negative_ttl_noop_witness :
    set cfgId 0 0 "k" (JsVal.num 1) (some (-1)) initState = .ok initState ∧
      mset cfgId 0 [(("a", JsVal.num 2), 0)] (some (-1)) initState
        = .ok initState :=
  claim6_negative_ttl_noop cfgId (-1) (by decide) 0 0 0 "k" (JsVal.num 1)
    [(("a", JsVal.num 2), 0)] initState

/-- C10: in `set` the negative-TTL early return precedes the cacheability
check, so a value rejected by the predicate together with a strictly
negative `ttlSeconds` yields a silent success (never `NoCacheableError`)
and no write. -/
theorem claim10_ttl_before_cacheable {V B : Type} (cfg : StoreConfig V B)
    (t : Int) (ht : t < 0) (v : V) (hv : cfg.isCacheable v = false)
    (now1 now2 : Int) (k : String) (s : StoreState B) :
    set cfg now1 now2 k v (some t) s = .ok s := by
  have h1000 : t * 1000 < 0 := by omega
  simp [set, effectiveTtl, h1000]

/-- C10 witness: `set` of the non-cacheable `undefined` with
`ttlSeconds = -1` returns success with the state unchanged. -/
theorem claim10_ttl_before_cacheable_witness :
    set cfgId 0 0 "k" JsVal.undef (some (-1)) initState = .ok initState :=
  claim10_ttl_before_cacheable cfgId (-1) (by decide) JsVal.undef rfl 0 0 "k"
    initState

/-- The state holding the junk row of the repository's own test
`should return undefined for junk stored values`: key `foo`, payload
`~junk~`, written at `1000` and unexpired until `37000`. The purge cursor
equals the current time, so the sweep is a no-op. -/
def sJunk : StoreState String :=
  { table := [⟨"foo", "~junk~", 1000, 37000⟩], lastPurgeTime := 1000 }

/-- C3: `get` on a present, unexpired row whose payload fails to
deserialize propagates the decode error to the caller instead of returning
the absent miss result — the source has no try/catch around
`serializerAdapter.deserialize`, although the repository's own test
`should return undefined for junk stored values` (and the spec) require a
miss. The second conjunct records that the row is unexpired at the time of
the call. -/
theorem claim3_get_junk_propagates :
    (get cfgJunk 1000 1000 "foo" sJunk).2 = .error "unexpected cbor payload"
      ∧ ((1000 : Int) < 37000) :=
  ⟨rfl, by decide⟩

/-- C4 (amended): when the effective TTL is non-negative and the value
passes the cacheability predicate but its serialization fails, `set`
writes no row — but the codec error propagates to the caller (the call
fails) rather than returning success. -/
theorem claim4_set_serialize_error_amended {V B : Type}
    (cfg : StoreConfig V B) (now1 now2 : Int) (k : String) (v : V)
    (e : String) (ttlOpt : Option Int) (s : StoreState B)
    (h0 : 0 ≤ effectiveTtl cfg ttlOpt) (hc : cfg.isCacheable v = true)
    (hs : cfg.serialize v = .error e) :
    set cfg now1 now2 k v ttlOpt s = .error (.codec e) := by
  simp [set, not_lt.mpr h0, hc, hs]

/-- C4 witness: `set` of the value whose serialization fails (standing for
e.g. a circular object under `JSON.stringify`) fails with the propagated
codec error. -/
theorem claim4_set_serialize_error_witness :
    set cfgFailSer 3 4 "q" (JsVal.num 0) none initState
      = .error (.codec "circular structure") :=
  claim4_set_serialize_error_amended cfgFailSer 3 4 "q" (JsVal.num 0)
    "circular structure" none initState (by decide) rfl rfl

/-- C4 counterexample: with the default TTL (non-negative) and a cacheable
value whose serialization fails, `set` returns an error — the claim's
"surfaces no error to the caller: ... the call returns success" is false
at this input. -/
theorem claim4_set_serialize_error_cex :
    set cfgFailSer 0 0 "k" (JsVal.num 0) none initState
        = .error (.codec "circular structure")
      ∧ cfgFailSer.isCacheable (JsVal.num 0) = true :=
  ⟨rfl, rfl⟩

/-- C1: for every cacheable value whose codec round-trips (`serialize`
succeeds and `deserialize` inverts it), `set` with the default TTL (the
`ttl` argument omitted, `defaultTtl ≥ 0`) followed by `get` before the
entry's expiration (`nowG < now1 + defaultTtl`, with the clock samples in
call order `nowP ≤ nowG`) returns exactly the stored value. -/
theorem claim1_set_get_roundtrip {V B : Type} (cfg : StoreConfig V B)
    (now1 now2 nowP nowG : Int) (k : String) (v : V) (b : B)
    (s : StoreState B)
    (hDttl : 0 ≤ cfg.defaultTtl)
    (hc : cfg.isCacheable v = true)
    (hs : cfg.serialize v = .ok b)
    (hd : cfg.deserialize b = .ok v)
    (hPG : nowP ≤ nowG)
    (hlive : nowG < now1 + cfg.defaultTtl) :
    ∃ s2, set cfg now1 now2 k v none s = .ok s2 ∧
      (get cfg nowP nowG k s2).2 = .ok (some v) := by
  have httl : ¬ effectiveTtl cfg none < 0 := by
    simp only [effectiveTtl]; omega
  refine ⟨{ s with table := upsert s.table ⟨k, b, now2, now1 + effectiveTtl cfg none⟩ }, ?_, ?_⟩
  · simp [set, httl, hc, hs]
  · have hkeep : ¬ (⟨k, b, now2, now1 + effectiveTtl cfg none⟩ :
        CacheRow B).expire_at < nowP := by
      simp only [effectiveTtl]; omega
    obtain ⟨l, hl, hkeys⟩ := purge_upsert_decomp nowP s
      ⟨k, b, now2, now1 + effectiveTtl cfg none⟩ hkeep
    have hfind : (purgeExpired nowP { s with table := upsert s.table ⟨k, b, now2, now1 + effectiveTtl cfg none⟩ }).table.find?
          (fun r => r.key == k && decide (nowG < r.expire_at)) =
        some ⟨k, b, now2, now1 + effectiveTtl cfg none⟩ := by
      rw [hl, List.find?_append]
      have hnone : l.find?
          (fun r => r.key == k && decide (nowG < r.expire_at)) = none := by
        refine List.find?_eq_none.mpr fun x hx => ?_
        simp [hkeys x hx]
      have hsome : [(⟨k, b, now2, now1 + effectiveTtl cfg none⟩ :
          CacheRow B)].find?
            (fun r => r.key == k && decide (nowG < r.expire_at)) =
          some ⟨k, b, now2, now1 + effectiveTtl cfg none⟩ := by
        have : nowG < now1 + effectiveTtl cfg none := by
          simp only [effectiveTtl]; omega
        simp [List.find?, this]
      rw [hnone, hsome]
      rfl
    simp [get, hfind, hd]

/-- C1 witness: on the fresh store with the identity codec, `set` of the
number `7` under key `k` with the default TTL followed by `get` two
milliseconds later returns `7`. -/
theorem claim1_set_get_roundtrip_witness :
    ∃ s2, set cfgId 0 1 "k" (JsVal.num 7) none initState = .ok s2 ∧
      (get cfgId 2 3 "k" s2).2 = .ok (some (JsVal.num 7)) :=
  claim1_set_get_roundtrip cfgId 0 1 2 3 "k" (JsVal.num 7) (JsVal.num 7)
    initState (by decide) rfl rfl rfl (by decide) (by decide)

/-- C7: `set(k, v, 0)` with a cacheable, serializable value writes a row
whose `expire_at` equals the clock sample `now1` taken during the write
(expired on arrival), and any `get(k)` at the same or a later time
(`now1 ≤ nowG`) returns the miss result. -/
theorem claim7_zero_ttl_miss {V B : Type} (cfg : StoreConfig V B)
    (now1 now2 nowP nowG : Int) (k : String) (v : V) (b : B)
    (s : StoreState B)
    (hc : cfg.isCacheable v = true)
    (hs : cfg.serialize v = .ok b)
    (hm : now1 ≤ nowG) :
    ∃ s2, set cfg now1 now2 k v (some 0) s = .ok s2
      ∧ (∃ r ∈ s2.table, r.key = k ∧ r.expire_at = now1)
      ∧ (get cfg nowP nowG k s2).2 = .ok none := by
  have httl : ¬ effectiveTtl cfg (some 0) < 0 := by
    simp [effectiveTtl]
  refine ⟨{ s with table := upsert s.table ⟨k, b, now2, now1 + effectiveTtl cfg (some 0)⟩ }, ?_, ?_, ?_⟩
  · simp [set, httl, hc, hs]
  · refine ⟨⟨k, b, now2, now1 + effectiveTtl cfg (some 0)⟩, ?_, rfl, ?_⟩
    · exact List.mem_append.mpr (Or.inr (List.mem_singleton.mpr rfl))
    · simp [effectiveTtl]
  · have hfind : (purgeExpired nowP { s with table := upsert s.table ⟨k, b, now2, now1 + effectiveTtl cfg (some 0)⟩ }).table.find?
          (fun r => r.key == k && decide (nowG < r.expire_at)) = none := by
      refine List.find?_eq_none.mpr fun x hx => ?_
      have hx2 := mem_of_mem_purge nowP _ x hx
      rcases mem_upsert_cases _ _ x hx2 with ⟨_, hne⟩ | rfl
      · simp [hne]
      · have : ¬ nowG < now1 + effectiveTtl cfg (some 0) := by
          simp only [effectiveTtl]; omega
        simp [this]
    simp [get, hfind]

/-- C7 witness: on the fresh store, `set("k", 7, 0)` at time `5` writes a
row with `expire_at = 5` and an immediate `get` at the same instant
misses. -/
theorem claim7_zero_ttl_miss_witness :
    ∃ s2, set cfgId 5 5 "k" (JsVal.num 7) (some 0) initState = .ok s2
      ∧ (∃ r ∈ s2.table, r.key = "k" ∧ r.expire_at = 5)
      ∧ (get cfgId 5 5 "k" s2).2 = .ok none :=
  claim7_zero_ttl_miss cfgId 5 5 5 5 "k" (JsVal.num 7) (JsVal.num 7)
    initState rfl rfl (by decide)

/-- Pointwise bridge between the purge sweep's SQL predicate
`expire_at < now` (negated for the surviving rows) and the spec's
`now ≤ expire_at`. -/
lemma not_lt_decide_eq (a b : Int) : (!(decide (a < b))) = decide (b ≤ a) := by
  by_cases h : a < b
  · simp [h, not_le.mpr h]
  · simp [h, not_lt.mp h]

/-- A state whose single row is logically expired (`expire_at = 5 ≤ 10`)
while the purge cursor is current (`lastPurgeTime = 10`), as after a
recent sweep: the throttle keeps the stale row in the table. -/
def sStale : StoreState JsVal :=
  { table := [⟨"k", JsVal.num 1, 0, 5⟩], lastPurgeTime := 10 }

/-- C2 counterexample: at time `10`, the store `sStale` holds a row for
key `k` with `expire_at = 5 ≤ 10` (logically expired), but because the
purge ran less than an hour ago (`10 - 10 < 3600000`) `keys()` — which
has no `expire_at` filter of its own — still returns `k`. The claim "no
key whose row has expire_at ≤ now appears" is false at this input. -/
theorem claim2_keys_cex :
    "k" ∈ (keysFn 10 sStale).2
      ∧ (⟨"k", JsVal.num 1, 0, 5⟩ : CacheRow JsVal) ∈ sStale.table
      ∧ ((5 : Int) ≤ 10) := by
  decide

/-- C2 (amended): `keys()` returns the keys of the physically present
rows after the throttled purge sweep. When the sweep actually runs (at
least one hour since the last purge) the returned keys are exactly those
of rows with `expire_at ≥ now` — so a row expiring at exactly `now`,
though logically expired, is still listed; when the sweep is throttled,
all physically present keys, including logically expired ones, are
returned. Every live row's key is always returned. -/
theorem claim2_keys_amended {B : Type} (nowP : Int) (s : StoreState B) :
    (nowP - s.lastPurgeTime ≥ 60 * 60 * 1000 →
      (keysFn nowP s).2
        = (s.table.filter fun r => decide (nowP ≤ r.expire_at)).map
            (fun r => r.key))
    ∧ (∀ r ∈ s.table, nowP ≤ r.expire_at → r.key ∈ (keysFn nowP s).2) := by
  constructor
  · intro hp
    have hfe : s.table.filter (fun r => !(decide (r.expire_at < nowP)))
        = s.table.filter fun r => decide (nowP ≤ r.expire_at) :=
      List.filter_congr fun x _ => not_lt_decide_eq x.expire_at nowP
    have hp2 : (3600000 : Int) ≤ nowP - s.lastPurgeTime := by omega
    simp [keysFn, purgeExpired, hp2, hfe]
  · intro r hr hle
    by_cases hp : nowP - s.lastPurgeTime ≥ 60 * 60 * 1000
    · have hkeep : (!(decide (r.expire_at < nowP))) = true := by
        rw [not_lt_decide_eq]; simpa using hle
      simp only [keysFn, purgeExpired, hp, if_pos]
      exact List.mem_map.mpr ⟨r, List.mem_filter.mpr ⟨hr, hkeep⟩, rfl⟩
    · simp only [keysFn, purgeExpired, hp, if_neg, if_false]
      exact List.mem_map.mpr ⟨r, hr, rfl⟩

/-- A mixed state: one row already strictly expired at `3600000`, one row
still live; the purge cursor is at `0`, so a call at `3600000`
triggers the sweep. -/
def sLiveMix : StoreState JsVal :=
  { table := [⟨"a", JsVal.num 1, 0, 3599999⟩, ⟨"b", JsVal.num 2, 0, 4000000⟩],
    lastPurgeTime := 0 }

/-- C2 witness: at time `3600000` the sweep runs and `keys()` returns
exactly the keys of rows with `expire_at ≥ 3600000`, i.e. `["b"]`. -/
theorem claim2_keys_amended_witness :
    (keysFn 3600000 sLiveMix).2
      = (sLiveMix.table.filter fun r =>
          decide ((3600000 : Int) ≤ r.expire_at)).map (fun r => r.key) :=
  (claim2_keys_amended 3600000 sLiveMix).1 (by decide)

/-- A state holding one row that expires exactly at time `100`; the purge
cursor is `0` (a call at `100` is still throttled, but even an unthrottled
sweep would keep this row since the sweep deletes only
`expire_at < now`). -/
def sBoundary : StoreState JsVal :=
  { table := [⟨"k", JsVal.num 1, 0, 100⟩], lastPurgeTime := 0 }

/-- C8 counterexample: at time `100` the row for `k` is logically expired
(`expire_at = 100 ≤ 100`, `get` would miss), yet `ttl(k)` returns
`100 - 100 = 0`, which is not strictly negative — the claim that the
result is strictly negative for every absent-or-expired key is false at
this input. -/
theorem claim8_ttl_cex :
    (ttlFn 100 100 "k" sBoundary).2 = 0
      ∧ ¬ (ttlFn 100 100 "k" sBoundary).2 < 0
      ∧ ((100 : Int) ≤ 100) := by
  decide

/-- C8 (amended): `ttl(key)` returns `expire_at - now` for every
physically present row (`now` being the second clock sample of the call),
a value that is positive exactly when the row is live (`expire_at > now`)
— for a present but expired row it is `≤ 0`, and exactly `0` when
`expire_at = now`; when no row survives the (throttled) purge sweep it
returns the negative sentinel `-1`. -/
theorem claim8_ttl_amended {B : Type} (nowP nowT : Int) (k : String)
    (s : StoreState B) :
    (∀ r, (purgeExpired nowP s).table.find? (fun r0 => r0.key == k) = some r →
      (ttlFn nowP nowT k s).2 = r.expire_at - nowT
        ∧ (0 < (ttlFn nowP nowT k s).2 ↔ nowT < r.expire_at))
    ∧ ((purgeExpired nowP s).table.find? (fun r0 => r0.key == k) = none →
      (ttlFn nowP nowT k s).2 = -1) := by
  constructor
  · intro r hfind
    have h2 : (ttlFn nowP nowT k s).2 = r.expire_at - nowT := by
      simp [ttlFn, hfind]
    exact ⟨h2, by rw [h2]; omega⟩
  · intro hfind
    simp [ttlFn, hfind]

/-- A state with one live row (`expire_at = 500`) and purge cursor `0`. -/
def sLive : StoreState JsVal :=
  { table := [⟨"k", JsVal.num 1, 0, 500⟩], lastPurgeTime := 0 }

/-- C8 witness: at clock samples `100`/`150`, `ttl("k")` on the live row
expiring at `500` returns `500 - 150 = 350`, positive because the row is
live. -/
theorem claim8_ttl_amended_witness :
    (ttlFn 100 150 "k" sLive).2 = 500 - 150
      ∧ (0 < (ttlFn 100 150 "k" sLive).2 ↔ (150 : Int) < 500) :=
  (claim8_ttl_amended 100 150 "k" sLive).1 ⟨"k", JsVal.num 1, 0, 500⟩
    (by decide)

/-- Building the `mset` bindings throws `NoCacheableError` for the first
non-cacheable pair, provided every earlier pair passes the predicate and
serializes. -/
lemma msetBindings_notCacheable {V B : Type} (cfg : StoreConfig V B)
    (e : Int) (k : String) (v : V) (tv : Int)
    (rest : List ((String × V) × Int)) (hv : cfg.isCacheable v = false)
    (pre : List ((String × V) × Int))
    (hpre : ∀ p ∈ pre, cfg.isCacheable p.1.2 = true
      ∧ ∃ b, cfg.serialize p.1.2 = .ok b) :
    msetBindings cfg e (pre ++ ((k, v), tv) :: rest)
      = .error (.noCacheable v) := by
  induction pre with
  | nil => simp [msetBindings, hv]
  | cons p pre ih =>
    obtain ⟨⟨k0, v0⟩, t0⟩ := p
    obtain ⟨hc0, b0, hs0⟩ := hpre _ (List.mem_cons_self _ _)
    have htail := ih fun q hq => hpre q (List.mem_cons_of_mem _ hq)
    simp [msetBindings, hc0, hs0, htail]

/-- C5 (amended): with a non-negative effective TTL, when the batch
contains a pair whose value fails the cacheability predicate and every
earlier pair both passes the predicate and serializes successfully,
`mset` fails with `NoCacheableError` and writes nothing (the state is
unchanged, as the error occurs while building the bindings, before any
row is written); a serialization failure on an earlier pair would instead
be signalled as the propagated codec error, still with no rows written. -/
theorem claim5_mset_notcacheable_amended {V B : Type}
    (cfg : StoreConfig V B) (t0 : Int) (ttlOpt : Option Int)
    (h0 : 0 ≤ effectiveTtl cfg ttlOpt)
    (pre : List ((String × V) × Int)) (k : String) (v : V) (tv : Int)
    (rest : List ((String × V) × Int))
    (hpre : ∀ p ∈ pre, cfg.isCacheable p.1.2 = true
      ∧ ∃ b, cfg.serialize p.1.2 = .ok b)
    (hv : cfg.isCacheable v = false) (s : StoreState B) :
    mset cfg t0 (pre ++ ((k, v), tv) :: rest) ttlOpt s
      = .error (.noCacheable v) := by
  have hb := msetBindings_notCacheable cfg (t0 + effectiveTtl cfg ttlOpt)
    k v tv rest hv pre hpre
  simp [mset, not_lt.mpr h0, hb]

/-- C5 witness: a batch whose first pair is cacheable and serializable and
whose second value is the non-cacheable `null` makes `mset` fail with
`NoCacheableError` carrying that value, with nothing written. -/
theorem claim5_mset_notcacheable_witness :
    mset cfgId 0 [(("a", JsVal.num 1), 5), (("b", JsVal.jsNull), 6)] none
        initState = .error (.noCacheable JsVal.jsNull) :=
  claim5_mset_notcacheable_amended cfgId 0 none (by decide)
    [(("a", JsVal.num 1), 5)] "b" JsVal.jsNull 6 []
    (by
      intro p hp
      rw [List.mem_singleton] at hp
      subst hp
      exact ⟨rfl, ⟨JsVal.num 1, rfl⟩⟩)
    rfl initState

/-- C5 counterexample: the batch `[("a", num 0), ("b", null)]` under the
serializer that fails on `num 0` has a value (`null`) that fails the
cacheability predicate and a non-negative effective TTL, yet `mset`
signals the propagated codec error, not `NotCacheable` — the claim's
"signals a NotCacheable failure to the caller" is false at this input
(no rows are written either way). -/
theorem claim5_mset_notcacheable_cex :
    mset cfgFailSer 0 [(("a", JsVal.num 0), 5), (("b", JsVal.jsNull), 6)]
        none initState = .error (.codec "circular structure")
      ∧ cfgFailSer.isCacheable JsVal.jsNull = false
      ∧ (0 : Int) ≤ effectiveTtl cfgFailSer none :=
  ⟨rfl, rfl, by decide⟩

/-- A row of a repeated `upsert` fold is either a row of the initial table
or one of the folded-in rows. -/
lemma mem_foldl_upsert {B : Type} :
    ∀ (rows : List (CacheRow B)) (t : List (CacheRow B)) (x : CacheRow B),
      x ∈ rows.foldl upsert t → x ∈ t ∨ x ∈ rows := by
  intro rows
  induction rows with
  | nil => exact fun t x h => Or.inl h
  | cons r rows ih =>
    intro t x h
    rcases ih (upsert t r) x h with h2 | h2
    · rcases mem_upsert_cases t r x h2 with ⟨hx, _⟩ | rfl
      · exact Or.inl hx
      · exact Or.inr (List.mem_cons_self _ _)
    · exact Or.inr (List.mem_cons_of_mem _ h2)

/-- Every row produced by a successful `msetBindings` carries the shared
`expireAt` and, as `created_at`, the `Date.now()` sample of its own
pair. -/
lemma msetBindings_spec {V B : Type} (cfg : StoreConfig V B) (e : Int) :
    ∀ (pairs : List ((String × V) × Int)) (rows : List (CacheRow B)),
      msetBindings cfg e pairs = .ok rows →
      ∀ x ∈ rows, x.expire_at = e
        ∧ x.created_at ∈ pairs.map (fun p => p.2) := by
  intro pairs
  induction pairs with
  | nil =>
    intro rows h x hx
    simp only [msetBindings] at h
    cases h
    simp at hx
  | cons p pairs ih =>
    intro rows h x hx
    obtain ⟨⟨k0, v0⟩, t0⟩ := p
    simp only [msetBindings] at h
    rcases hcv : cfg.isCacheable v0 with _ | _ <;> rw [hcv] at h
    · simp at h
    · simp only [Bool.not_true, if_false, Bool.false_eq_true] at h
      rcases hsv : cfg.serialize v0 with e0 | b0 <;> rw [hsv] at h
      · simp at h
      · rcases hmb : msetBindings cfg e pairs
            with (e1 | rows1) <;> rw [hmb] at h
        · simp at h
        · simp only [Except.ok.injEq] at h
          subst h
          rcases List.mem_cons.mp hx with rfl | hx2
          · exact ⟨rfl, by simp⟩
          · obtain ⟨he, hc⟩ := ih rows1 hmb x hx2
            exact ⟨he, by simp [hc]⟩

/-- C9 (amended): with a non-negative effective TTL, every row added by
`set` has `expire_at = now1 + effective_ttl_millis` where `now1` is the
clock sample taken when computing the expiration, and `created_at = now2`,
the separate, possibly later sample passed to the insert (so
`expire_at = created_at + ttl` only when the clock did not advance in
between); every row added by one `mset` call shares the single
`expire_at = t0 + effective_ttl_millis`, while its `created_at` is the
per-pair clock sample, which may differ between rows of the batch. -/
theorem claim9_rows_amended {V B : Type} (cfg : StoreConfig V B)
    (ttlOpt : Option Int) (h0 : 0 ≤ effectiveTtl cfg ttlOpt) :
    (∀ (now1 now2 : Int) (k : String) (v : V) (s s2 : StoreState B),
      set cfg now1 now2 k v ttlOpt s = .ok s2 →
      ∀ x ∈ s2.table, x ∈ s.table
        ∨ (x.expire_at = now1 + effectiveTtl cfg ttlOpt
            ∧ x.created_at = now2))
    ∧ (∀ (t0 : Int) (pairs : List ((String × V) × Int))
        (s s2 : StoreState B),
      mset cfg t0 pairs ttlOpt s = .ok s2 →
      ∀ x ∈ s2.table, x ∈ s.table
        ∨ (x.expire_at = t0 + effectiveTtl cfg ttlOpt
            ∧ x.created_at ∈ pairs.map (fun p => p.2))) := by
  constructor
  · intro now1 now2 k v s s2 hset x hx
    simp only [set, not_lt.mpr h0, if_false, if_neg (by omega : ¬ effectiveTtl cfg ttlOpt < 0)] at hset
    rcases hcv : cfg.isCacheable v with _ | _ <;> rw [hcv] at hset
    · simp at hset
    · simp only [Bool.not_true, Bool.false_eq_true, if_false] at hset
      rcases hsv : cfg.serialize v with e0 | b0 <;> rw [hsv] at hset
      · simp at hset
      · simp only [Except.ok.injEq] at hset
        subst hset
        rcases mem_upsert_cases s.table _ x hx with ⟨hx2, _⟩ | rfl
        · exact Or.inl hx2
        · exact Or.inr ⟨rfl, rfl⟩
  · intro t0 pairs s s2 hset x hx
    simp only [mset, if_neg (by omega : ¬ effectiveTtl cfg ttlOpt < 0)] at hset
    rcases hmb : msetBindings cfg (t0 + effectiveTtl cfg ttlOpt) pairs
        with (e1 | rows) <;> rw [hmb] at hset
    · simp at hset
    · simp only [Except.ok.injEq] at hset
      subst hset
      rcases mem_foldl_upsert rows s.table x hx with hx2 | hx2
      · exact Or.inl hx2
      · exact Or.inr (msetBindings_spec cfg _ pairs rows hmb x hx2)

/-- C9 witness: the row written by `set` at clock samples `3`/`3` on the
fresh store has the shared-sample shape: `expire_at = 3 + 86400000` and
`created_at = 3`. -/
theorem claim9_rows_amended_witness :
    (⟨"k", JsVal.num 7, 3, 86400003⟩ : CacheRow JsVal)
        ∈ (initState (B := JsVal)).table
      ∨ ((86400003 : Int) = 3 + effectiveTtl cfgId none
          ∧ (3 : Int) = 3) :=
  (claim9_rows_amended cfgId none (by decide)).1 3 3 "k" (JsVal.num 7)
    initState { table := [⟨"k", JsVal.num 7, 3, 86400003⟩], lastPurgeTime := 0 }
    rfl ⟨"k", JsVal.num 7, 3, 86400003⟩ (by simp)

/-- C9 counterexample: when the clock advances between the two
`Date.now()` samples of one `set` call (`now1 = 0` for the expiration,
`now2 = 1` for `created_at`), the written row has
`expire_at = 86400000 ≠ 1 + 86400000 = created_at + effective_ttl_millis`
— the claim `expire_at = created_at + effective_ttl_millis` for every
written row is false at this input. -/
theorem claim9_rows_cex :
    set cfgId 0 1 "k" (JsVal.num 7) none initState
        = .ok { table := [⟨"k", JsVal.num 7, 1, 86400000⟩],
                lastPurgeTime := 0 }
      ∧ ((86400000 : Int) ≠ 1 + 86400000) :=
  ⟨rfl, by decide⟩

end BunSqliteStore
